import Mathlib

/-!
Verification of the RAG document pipeline of this repository
(src/rag_agent: utils.py, ingest.py, rag.py, agent.py), through a shallow
embedding of its data model and operations.

Texts (Python `str` values) are modelled as `List Char`; file and
collection names stay `String`.  External collaborators (the filesystem
listing, PDF text extraction, the embedding service) are explicit
parameters of the ingestion run, and the Qdrant vector store is an
explicit association list from collection name to collection.
-/

namespace RagAgent

deriving instance DecidableEq for Except

/-- A text (Python `str`), as a sequence of characters. -/
abbrev Text := List Char

/-- Python `str.endswith`: case-sensitive suffix test, as used by
`file.endswith(".pdf")` in src/rag_agent/ingest.py line 16. -/
def pyEndsWith (s sfx : String) : Bool := sfx.data.isSuffixOf s.data

/-- Python `str.strip` for the character set arising here
(space, tab, carriage return, line feed). -/
def pyStrip (t : Text) : Text :=
  ((t.dropWhile Char.isWhitespace).reverse.dropWhile Char.isWhitespace).reverse

/-! ## Configuration (src/rag_agent/utils.py lines 12-16) -/

/-- The process environment: a variable name maps to its value when set
(Python `os.getenv` yields `None`, here `none`, when it is not). -/
abbrev EnvVars := String → Option String

/-- The five module-level configuration values of src/rag_agent/utils.py. -/
structure Config where
  DATA_DIR : Option String
  QDRANT_URL : Option String
  COLLECTION_NAME : Option String
  MODEL_NAME : Option String
  EMBEDDING_MODEL : Option String
deriving DecidableEq, Repr

/-- Startup configuration load (import side of src/rag_agent/utils.py):
five `os.getenv` reads and nothing else — no validation, no failure. -/
def loadConfig (env : EnvVars) : Config :=
  { DATA_DIR := env "DATA_DIR"
    QDRANT_URL := env "QDRANT_URL"
    COLLECTION_NAME := env "COLLECTION_NAME"
    MODEL_NAME := env "MODEL_NAME"
    EMBEDDING_MODEL := env "EMBEDDING_MODEL" }

/-! ## Vector store model (qdrant_client as used by ingest.py and rag.py) -/

/-- Similarity metric of a collection (`qdrant_client.models.Distance`). -/
inductive Distance
  | cosine
  | euclid
  | dot
deriving DecidableEq, Repr

/-- Model of `qdrant_client.models.VectorParams`: dimensionality plus metric. -/
structure VectorParams where
  size : Nat
  distance : Distance
deriving DecidableEq, Repr

/-- One extracted page / chunk (a langchain `Document`): its text plus the
source file it came from. -/
structure PyDocument where
  page_content : Text
  source : String
deriving DecidableEq, Repr

/-- One stored point: the embedding vector and the chunk payload.  Vector
components are never inspected by the pipeline; an abstract numeric type suffices. -/
structure Point where
  vector : List Int
  payload : PyDocument
deriving DecidableEq, Repr

/-- A collection: its vector configuration and its stored points. -/
structure Collection where
  params : VectorParams
  points : List Point
deriving DecidableEq, Repr

/-- The vector-store state: collections by name. -/
abbrev StoreState := List (String × Collection)

/-- Model of `client.collection_exists(name)`. -/
def collection_exists (st : StoreState) (name : String) : Bool :=
  (st.lookup name).isSome

/-- Model of `client.delete_collection(name)`. -/
def delete_collection (st : StoreState) (name : String) : StoreState :=
  st.filter (fun p => p.1 ≠ name)

/-- Model of `client.create_collection(name, vectors_config)`: a fresh empty
collection under the given name. -/
def create_collection (st : StoreState) (name : String) (p : VectorParams) : StoreState :=
  (name, ⟨p, []⟩) :: st

/-- Upsert of freshly embedded points into the named collection. -/
def upsertPoints (st : StoreState) (name : String) (ps : List Point) : StoreState :=
  st.map (fun e => if e.1 = name then (e.1, ⟨e.2.params, e.2.points ++ ps⟩) else e)

/-! ## Chunker

The repository delegates chunking to
`langchain_text_splitters.RecursiveCharacterTextSplitter`, configured by
`get_text_splitter` in src/rag_agent/utils.py lines 22-26 with
`chunk_size=1000, chunk_overlap=200`.  The library implementing the
splitter is not part of this repository, so the splitter itself is
modelled from the spec (sections 4.1 and 8): a greedy recursive strategy
that splits on paragraph boundaries first, then finer boundaries, then
raw characters, re-splits oversize fragments with the finer separators,
and merges small fragments into chunks of at most `chunk_size`
characters, carrying a window of at most `overlap` characters of
trailing fragments into the next chunk. -/

/-- Modelled from the spec: the chunker parameters.  The separator
hierarchy is paragraph break, line break, space, raw characters. -/
structure RecursiveCharacterTextSplitter where
  chunk_size : Nat
  chunk_overlap : Nat
  separators : List Text
deriving DecidableEq, Repr

/-- The default separator hierarchy of the splitter. -/
def defaultSeparators : List Text :=
  ["\n\n".data, "\n".data, " ".data, []]

/-- Modelled from the spec: constructing a chunker enforces the
precondition `overlap < chunk_size` (spec section 4.1); violating it is
a configuration error.  The check itself lives in the third-party
splitter library, not in this repository. -/
def RecursiveCharacterTextSplitter.make (cs ov : Nat) :
    Except String RecursiveCharacterTextSplitter :=
  if cs ≤ ov then
    .error "ConfigurationError: chunk overlap must be smaller than chunk size"
  else
    .ok { chunk_size := cs, chunk_overlap := ov, separators := defaultSeparators }

/-- Embedding of `get_text_splitter` (src/rag_agent/utils.py lines 22-26): the fixed
configuration `chunk_size=1000, chunk_overlap=200`.  Construction is
modelled in `Except` so a constructor rejection would propagate as an
exception to the caller. -/
def get_text_splitter : Except String RecursiveCharacterTextSplitter :=
  RecursiveCharacterTextSplitter.make 1000 200

/-- Does `sep` occur as a contiguous substring of `t`? -/
def containsSub (sep : Text) : Text → Bool
  | [] => sep.isEmpty
  | c :: rest => sep.isPrefixOf (c :: rest) || containsSub sep rest

/-- Split the text at each leftmost occurrence of the nonempty separator
`sep`; the pieces do not contain the separator.  `acc` holds the current
piece reversed; the fuel bounds the recursion and is never exhausted
when it starts at the length of the text (each step consumes at least one
character), and the fuel-zero arm agrees with the empty-text arm on the
only state it can be reached in. -/
def splitOnSepFuel (sep : Text) : Nat → Text → Text → List Text
  | 0, t, acc => [acc.reverse ++ t]
  | _ + 1, [], acc => [acc.reverse]
  | fuel + 1, c :: rest, acc =>
    if sep.isPrefixOf (c :: rest) then
      acc.reverse :: splitOnSepFuel sep fuel (rest.drop (sep.length - 1)) []
    else
      splitOnSepFuel sep fuel rest (c :: acc)

/-- Split the text at each occurrence of the nonempty separator `sep`. -/
def splitOnSep (sep t : Text) : List Text :=
  splitOnSepFuel sep t.length t []

/-- Modelled from the spec: split at every occurrence of the separator,
keeping each separator attached to the start of the fragment that
follows it (so no text is lost); an empty separator splits into single
characters; empty fragments are dropped. -/
def splitKeepSep (sep t : Text) : List Text :=
  if sep.isEmpty then
    t.map (fun c => [c])
  else
    match splitOnSep sep t with
    | [] => []
    | p :: ps => (p :: ps.map (fun q => sep ++ q)).filter (fun s => !s.isEmpty)

/-- Modelled from the spec: choose the first separator in the hierarchy
that is empty or occurs in the text; the separators after it are the
ones retried on oversize fragments.  The configured hierarchy ends with
the empty separator, so the final fallthrough cases are unreachable for
the splitter of this repository. -/
def chooseSep : List Text → Text → Text × List Text
  | [], _ => ([], [])
  | s :: ss, t =>
    if s.isEmpty then ([], [])
    else if containsSub s t then (s, ss)
    else
      match ss with
      | [] => (s, [])
      | _ :: _ => chooseSep ss t

/-- Modelled from the spec: shrink the carried fragment window before a
new chunk is started: drop leading fragments while more than `overlap`
characters are carried, or while the incoming fragment of length `L`
would not fit in `chunk_size` beside them.  `total` tracks the summed
length of the window. -/
def popWindow (cs ov L : Nat) : List Text → Nat → List Text × Nat
  | [], total => ([], total)
  | d :: rest, total =>
    if ov < total ∨ (cs < total + L ∧ 0 < total) then
      popWindow cs ov L rest (total - d.length)
    else
      (d :: rest, total)

/-- Concatenate the fragment window into one chunk text and strip
surrounding whitespace. -/
def joinStrip (cur : List Text) : Text :=
  pyStrip cur.flatten

/-- Modelled from the spec: greedy merge of small fragments into chunks.
Fragments accumulate in the window `cur` (summed length `total`) until
the next fragment would push the window past `chunk_size`; then the
window is emitted as a chunk (unless blank) and shrunk to at most
`overlap` carried characters before the next fragment joins it. -/
def mergeLoop (cs ov : Nat) : List Text → List Text → Nat → List Text
  | [], cur, _ =>
    match joinStrip cur with
    | [] => []
    | doc => [doc]
  | d :: rest, cur, total =>
    let L := d.length
    if cs < total + L then
      match cur with
      | [] => mergeLoop cs ov rest [d] (total + L)
      | _ :: _ =>
        let closed := joinStrip cur
        let popped := popWindow cs ov L cur total
        let tail := mergeLoop cs ov rest (popped.1 ++ [d]) (popped.2 + L)
        match closed with
        | [] => tail
        | doc => doc :: tail
    else
      mergeLoop cs ov rest (cur ++ [d]) (total + L)

/-- Merge a run of small fragments into chunks, starting from an empty
window. -/
def mergeSplits (cs ov : Nat) (splits : List Text) : List Text :=
  mergeLoop cs ov splits [] 0

/-- The fragment walk of the recursive splitter: `good` is the pending
run of small fragments awaiting the merge; an oversize fragment first
flushes the pending run, then is either emitted as-is (`emitRaw`, when
no finer separators remain) or re-split by `handler`, the splitter
instantiated at the finer separators. -/
def processSplitsGo (cs ov : Nat) (handler : Text → List Text) (emitRaw : Bool) :
    List Text → List Text → List Text
  | [], good =>
    match good with
    | [] => []
    | _ :: _ => mergeSplits cs ov good
  | s :: rest, good =>
    if s.length < cs then
      processSplitsGo cs ov handler emitRaw rest (good ++ [s])
    else
      (match good with
        | [] => ([] : List Text)
        | _ :: _ => mergeSplits cs ov good) ++
      (if emitRaw then [s] else handler s) ++
      processSplitsGo cs ov handler emitRaw rest []

/-- Modelled from the spec: recursive splitting.  Choose the coarsest
separator that applies, split the text by it, then walk the fragments.
The fuel bounds the recursion depth; the retried separator list
strictly shrinks at each level, so fuel starting at the hierarchy
length is never exhausted, and the fuel-zero arm agrees with the
empty-hierarchy arm on the only state it can be reached in.  Written
with `Nat.rec` so that the definition computes by kernel reduction. -/
def splitTextFuel (cs ov : Nat) (fuel : Nat) : List Text → Text → List Text :=
  Nat.rec (motive := fun _ => List Text → Text → List Text)
    (fun _ t => [t])
    (fun _ ih seps t =>
      match seps with
      | [] => [t]
      | s :: ss =>
        let chosen := chooseSep (s :: ss) t
        let splits := splitKeepSep chosen.1 t
        processSplitsGo cs ov (ih chosen.2) chosen.2.isEmpty splits [])
    fuel

/-- Recursive splitting at the full separator hierarchy. -/
def splitTextRec (cs ov : Nat) (seps : List Text) (t : Text) : List Text :=
  splitTextFuel cs ov seps.length seps t

/-- Modelled from the spec: split one document text into chunk texts. -/
def RecursiveCharacterTextSplitter.split_text
    (sp : RecursiveCharacterTextSplitter) (t : Text) : List Text :=
  splitTextRec sp.chunk_size sp.chunk_overlap sp.separators t

/-- Model of `splitter.split_documents(documents)`: split the text of each document
and wrap each chunk with the metadata of its document, preserving document
order and in-document chunk order. -/
def RecursiveCharacterTextSplitter.split_documents
    (sp : RecursiveCharacterTextSplitter) (docs : List PyDocument) : List PyDocument :=
  docs.flatMap (fun d => (sp.split_text d.page_content).map
    (fun t => { page_content := t, source := d.source }))

/-! ## Ingestion pipeline (src/rag_agent/ingest.py) -/

/-- The vector configuration every ingestion run creates the collection
with: dimensionality 768 and cosine distance
(src/rag_agent/ingest.py lines 28-34). -/
def ingestVectorParams : VectorParams := { size := 768, distance := .cosine }

/-- External collaborators of one ingestion run. -/
structure IngestEnv where
  /-- Result of `os.listdir(DATA_DIR)`: the directory listing in the order the
  operating system returns it, or an `OSError` (unreadable directory). -/
  listing : Except String (List String)
  /-- Result of `PyPDFLoader(path).load()`: the extracted pages of one file in page
  order, or an extraction failure. -/
  extract : String → Except String (List PyDocument)
  /-- The embedding collaborator on one chunk text: a vector, or an
  upstream service failure. -/
  embed : Text → Except String (List Int)

/-- An externally visible step of an ingestion run, in the order the run
performs it. -/
inductive Event
  | listDir
  | extractFile (name : String)
  | splitterInit (cs ov : Nat)
  | deleteCollection (name : String)
  | createCollection (name : String) (params : VectorParams)
  | upsert (count : Nat)
  | printCount (count : Nat)
deriving DecidableEq, Repr

/-- The document-loading loop of `ingest_data`
(src/rag_agent/ingest.py lines 14-18): walk the directory listing in
listing order; for each name ending in `".pdf"` (case-sensitive) load
its pages and extend the accumulated document list; every other name is
skipped without any effect.  The first extraction failure propagates.
Returns the trace of extraction events beside the outcome. -/
def loadDocumentsT (extract : String → Except String (List PyDocument)) :
    List String → List Event × Except String (List PyDocument)
  | [] => ([], .ok [])
  | f :: fs =>
    if pyEndsWith f ".pdf" then
      match extract f with
      | .error e => ([.extractFile f], .error e)
      | .ok pages =>
        let rest := loadDocumentsT extract fs
        (.extractFile f :: rest.1, rest.2.map (fun ds => pages ++ ds))
    else
      loadDocumentsT extract fs

/-- Model of `QdrantVectorStore.add_documents`: embed every chunk text in chunk
order, pairing each resulting vector with its chunk payload; the first
embedding failure propagates and nothing is upserted. -/
def embedChunks (embed : Text → Except String (List Int)) :
    List PyDocument → Except String (List Point)
  | [] => .ok []
  | c :: cs =>
    match embed c.page_content with
    | .error e => .error e
    | .ok v => (embedChunks embed cs).map (fun ps => ⟨v, c⟩ :: ps)

/-- Embedding of `ingest_data` (src/rag_agent/ingest.py lines 13-44) over an explicit
environment, collection name (the `COLLECTION_NAME` configuration value)
and vector-store state.  Returns the run outcome (`.ok` with the printed
chunk count, `.error` with the propagated exception), the final store
state, and the trace of events up to the point the run ended.  Steps, in
source order: list the directory and load the `.pdf` documents; build
the text splitter and split the documents; delete the collection if it
exists; create it afresh with dimensionality 768 and cosine distance;
embed the chunks and upsert them; print the chunk count. -/
def ingest_data (name : String) (env : IngestEnv) (st : StoreState) :
    Except String Nat × StoreState × List Event :=
  match env.listing with
  | .error e => (.error e, st, [.listDir])
  | .ok files =>
    let loaded := loadDocumentsT env.extract files
    match loaded.2 with
    | .error e => (.error e, st, .listDir :: loaded.1)
    | .ok documents =>
      match get_text_splitter with
      | .error e => (.error e, st, .listDir :: loaded.1)
      | .ok splitter =>
        let docs := splitter.split_documents documents
        let evs0 := (.listDir :: loaded.1) ++ [.splitterInit 1000 200]
        let deleted :=
          if collection_exists st name then
            (delete_collection st name, evs0 ++ [.deleteCollection name])
          else
            (st, evs0)
        let st1 := create_collection deleted.1 name ingestVectorParams
        let evs1 := deleted.2 ++ [.createCollection name ingestVectorParams]
        match embedChunks env.embed docs with
        | .error e => (.error e, st1, evs1)
        | .ok points =>
          (.ok docs.length, upsertPoints st1 name points,
            evs1 ++ [.upsert points.length, .printCount docs.length])

/-! ## Retrieval-answer pipeline (src/rag_agent/rag.py, agent.py) -/

/-- The retriever configuration built by `build_rag_chain`
(src/rag_agent/rag.py lines 22-25): `vectorstore.as_retriever` with
`search_type="similarity"` and `search_kwargs={"k": 4}`. -/
structure RetrieverConfig where
  search_type : String
  k : Nat
deriving DecidableEq, Repr

/-- The fixed refusal sentence mandated by the prompt of
`build_rag_chain` (src/rag_agent/rag.py line 34). -/
def refusalSentence : String :=
  "I cannot answer this question because the provided documents do not contain the necessary information."

/-- The RetrievalQA chain assembled by `build_rag_chain`
(src/rag_agent/rag.py lines 13-56): its retriever configuration and the
refusal sentence its prompt template mandates for insufficient context. -/
structure RagChain where
  retriever : RetrieverConfig
  promptRefusal : String
deriving DecidableEq, Repr

/-- Embedding of `build_rag_chain` (src/rag_agent/rag.py): the chain with similarity
search, `k = 4`, and the fixed refusal sentence in its prompt. -/
def build_rag_chain : RagChain :=
  { retriever := { search_type := "similarity", k := 4 }
    promptRefusal := refusalSentence }

/-- The value `rag_tool` returns (src/rag_agent/agent.py lines 7-12): a
dict with a `status` string and an `answer` string — and no other field. -/
structure RagToolResult where
  status : String
  answer : String
deriving DecidableEq, Repr

/-- Embedding of `rag_tool` (src/rag_agent/agent.py lines 7-12): invoke the chain on
the question and wrap the generated text; `invoke` stands for the
external `rag_chain.invoke` collaborator (its `result` field). -/
def rag_tool (invoke : String → String) (question : String) : RagToolResult :=
  { status := "success", answer := invoke question }

/-! ## Derived values -/

/-- The splitter value `get_text_splitter` constructs. -/
def theSplitter : RecursiveCharacterTextSplitter :=
  { chunk_size := 1000, chunk_overlap := 200, separators := defaultSeparators }

/-- The file names the loading loop actually loads: those ending in the
exact lowercase suffix ".pdf", in listing order. -/
def eligible (files : List String) : List String :=
  files.filter (fun f => pyEndsWith f ".pdf")

/-- Summed length of a list of fragments. -/
def sumLens (l : List Text) : Nat :=
  (l.map List.length).sum

/-! ## Concrete inputs used by counterexamples and witnesses -/

/-- A pre-existing, nonempty collection: the result of some previous
successful ingestion run. -/
def oldCollection : Collection :=
  { params := ingestVectorParams
    points := [{ vector := [7], payload := { page_content := "old".data, source := "old.pdf" } }] }

/-- One readable PDF; the embedding service fails. -/
def envEmbedFail : IngestEnv :=
  { listing := .ok ["a.pdf"]
    extract := fun f => .ok [{ page_content := "hello".data, source := f }]
    embed := fun _ => .error "embedding failed" }

/-- One PDF whose extraction fails (a corrupt file). -/
def envExtractFail : IngestEnv :=
  { listing := .ok ["a.pdf"]
    extract := fun _ => .error "corrupt pdf"
    embed := fun _ => .ok [1] }

/-- A readable directory containing no PDF file. -/
def envNoPdf : IngestEnv :=
  { listing := .ok ["notes.txt"]
    extract := fun _ => .error "never extracted"
    embed := fun _ => .error "never embedded" }

/-- One readable PDF; every collaborator succeeds. -/
def envOnePdf : IngestEnv :=
  { listing := .ok ["a.pdf"]
    extract := fun f => .ok [{ page_content := "hello".data, source := f }]
    embed := fun _ => .ok [1] }

/-- The same two files in the two listing orders the operating system
may return; each file extracts to one page holding its own name. -/
def envBA : IngestEnv :=
  { listing := .ok ["b.pdf", "a.pdf"]
    extract := fun f => .ok [{ page_content := f.data, source := f }]
    embed := fun _ => .ok [1] }

/-- See `envBA`: the other listing order of the same file set. -/
def envAB : IngestEnv :=
  { listing := .ok ["a.pdf", "b.pdf"]
    extract := fun f => .ok [{ page_content := f.data, source := f }]
    embed := fun _ => .ok [1] }

/-- An extraction collaborator that fails on everything that is not a
lowercase-suffix PDF. -/
def extractMixed : String → Except String (List PyDocument) :=
  fun f =>
    if pyEndsWith f ".pdf" then .ok [{ page_content := f.data, source := f }]
    else .error "unreadable"

/-- A directory mixing one eligible file with an uppercase ".PDF" file
and a text file, over the picky extraction collaborator. -/
def envMixed : IngestEnv :=
  { listing := .ok ["a.pdf", "B.PDF", "c.txt"]
    extract := extractMixed
    embed := fun _ => .ok [1] }

/-- Two 501-character paragraphs joined by a paragraph break. -/
def docA : Text :=
  List.replicate 501 'a' ++ "\n\n".data ++ List.replicate 501 'b'

/-! ## Supporting lemmas -/

/-- The separators retried on oversize fragments are a strict sublist of
the hierarchy they were chosen from. -/
theorem chooseSep_snd_length_lt (s : Text) (ss : List Text) (t : Text) :
    (chooseSep (s :: ss) t).2.length < (s :: ss).length := by
  induction ss generalizing s with
  | nil =>
    by_cases h1 : s.isEmpty <;> by_cases h2 : containsSub s t <;>
      simp [chooseSep, h1, h2]
  | cons s2 ss2 ih =>
    by_cases h1 : s.isEmpty
    · simp [chooseSep, h1]
    · by_cases h2 : containsSub s t
      · simp [chooseSep, h1, h2]
      · have h := ih s2
        simp only [chooseSep, h1, h2, if_false, if_true, List.length_cons,
          Bool.false_eq_true, if_neg, not_false_eq_true] at h ⊢
        omega

theorem get_text_splitter_eq : get_text_splitter = .ok theSplitter := rfl

theorem eligible_cons_pdf {f : String} (fs : List String)
    (h : pyEndsWith f ".pdf" = true) : eligible (f :: fs) = f :: eligible fs := by
  simp [eligible, List.filter_cons, h]

theorem eligible_cons_other {f : String} (fs : List String)
    (h : pyEndsWith f ".pdf" = false) : eligible (f :: fs) = eligible fs := by
  simp [eligible, List.filter_cons, h]

/-- When extraction succeeds on every eligible file (it may fail on
ineligible ones — they are never touched), the loading loop extracts
exactly the eligible files in listing order and concatenates their pages
in that order. -/
theorem loadDocumentsT_ok (extract : String → Except String (List PyDocument))
    (pages : String → List PyDocument) :
    ∀ files : List String, (∀ f ∈ eligible files, extract f = .ok (pages f)) →
      loadDocumentsT extract files =
        ((eligible files).map Event.extractFile, .ok ((eligible files).flatMap pages)) := by
  intro files
  induction files with
  | nil => intro _; simp [loadDocumentsT, eligible]
  | cons f fs ih =>
    intro h
    by_cases hf : pyEndsWith f ".pdf"
    · rw [eligible_cons_pdf fs hf] at h ⊢
      have h1 : extract f = .ok (pages f) := h f (by simp)
      have hrest := ih (fun g hg => h g (by simp [hg]))
      simp [loadDocumentsT, hf, h1, hrest, Except.map]
    · rw [eligible_cons_other fs (by simpa using hf)] at h ⊢
      have hrest := ih h
      simp [loadDocumentsT, hf, hrest]

/-- Every event the loading loop emits is an extraction event. -/
theorem loadDocumentsT_trace_extract (extract : String → Except String (List PyDocument)) :
    ∀ (files : List String), ∀ ev ∈ (loadDocumentsT extract files).1,
      ∃ f, ev = Event.extractFile f := by
  intro files
  induction files with
  | nil => simp [loadDocumentsT]
  | cons f fs ih =>
    intro ev hev
    by_cases hf : pyEndsWith f ".pdf"
    · simp only [loadDocumentsT, hf, if_true] at hev
      cases hex : extract f with
      | error e => rw [hex] at hev; simp at hev; exact ⟨f, hev⟩
      | ok pages =>
        rw [hex] at hev
        simp at hev
        rcases hev with h | h
        · exact ⟨f, h⟩
        · exact ih ev h
    · simp only [loadDocumentsT, hf, if_false, Bool.false_eq_true] at hev
      exact ih ev hev

/-- Embedding with a total embedding function pairs every chunk with its
vector, in chunk order. -/
theorem embedChunks_ok (vec : Text → List Int) :
    ∀ chunks : List PyDocument,
      embedChunks (fun t => .ok (vec t)) chunks =
        .ok (chunks.map (fun c => ⟨vec c.page_content, c⟩)) := by
  intro chunks
  induction chunks with
  | nil => simp [embedChunks]
  | cons c cs ih => simp [embedChunks, ih, Except.map]

/-- Looking up the freshly created collection. -/
theorem lookup_create (st : StoreState) (name : String) (p : VectorParams) :
    (create_collection st name p).lookup name = some { params := p, points := [] } := by
  simp [create_collection, List.lookup]

/-- Looking up the freshly created collection after the upsert. -/
theorem lookup_upsert_create (st : StoreState) (name : String) (p : VectorParams)
    (ps : List Point) :
    (upsertPoints (create_collection st name p) name ps).lookup name =
      some { params := p, points := ps } := by
  unfold upsertPoints create_collection
  simp only [List.map_cons]
  split
  · simp [List.lookup]
  · rename_i h
    exact absurd trivial h

/-- An unreadable source directory: the `OSError` of `os.listdir`
propagates and the store is untouched. -/
theorem ingest_data_listing_error (name : String) (env : IngestEnv) (st : StoreState)
    (e : String) (hl : env.listing = .error e) :
    ingest_data name env st = (.error e, st, [.listDir]) := by
  unfold ingest_data
  rw [hl]

/-- An extraction failure: the run stops before any store mutation. -/
theorem ingest_data_extract_error (name : String) (env : IngestEnv) (st : StoreState)
    (files : List String) (e : String)
    (hl : env.listing = .ok files)
    (hd : (loadDocumentsT env.extract files).2 = .error e) :
    ingest_data name env st =
      (.error e, st, .listDir :: (loadDocumentsT env.extract files).1) := by
  unfold ingest_data
  rw [hl]
  simp only [hd]

/-- An embedding failure: by this point the old collection has already
been deleted and a fresh empty one created in its place. -/
theorem ingest_data_embed_error (name : String) (env : IngestEnv) (st : StoreState)
    (files : List String) (documents : List PyDocument) (e : String)
    (hl : env.listing = .ok files)
    (hd : (loadDocumentsT env.extract files).2 = .ok documents)
    (he : embedChunks env.embed (theSplitter.split_documents documents) = .error e) :
    ingest_data name env st =
      (.error e,
        create_collection
          (if collection_exists st name then delete_collection st name else st)
          name ingestVectorParams,
        .listDir :: (loadDocumentsT env.extract files).1 ++ [.splitterInit 1000 200] ++
          (if collection_exists st name then [Event.deleteCollection name] else []) ++
          [.createCollection name ingestVectorParams]) := by
  unfold ingest_data
  rw [hl]
  simp only [hd, get_text_splitter_eq, he]
  by_cases hc : collection_exists st name <;> simp [hc]

/-- The successful run in closed form. -/
theorem ingest_data_success (name : String) (env : IngestEnv) (st : StoreState)
    (files : List String) (documents : List PyDocument) (points : List Point)
    (hl : env.listing = .ok files)
    (hd : (loadDocumentsT env.extract files).2 = .ok documents)
    (he : embedChunks env.embed (theSplitter.split_documents documents) = .ok points) :
    ingest_data name env st =
      (.ok (theSplitter.split_documents documents).length,
        upsertPoints
          (create_collection
            (if collection_exists st name then delete_collection st name else st)
            name ingestVectorParams)
          name points,
        .listDir :: (loadDocumentsT env.extract files).1 ++ [.splitterInit 1000 200] ++
          (if collection_exists st name then [Event.deleteCollection name] else []) ++
          [.createCollection name ingestVectorParams, .upsert points.length,
            .printCount (theSplitter.split_documents documents).length]) := by
  unfold ingest_data
  rw [hl]
  simp only [hd, get_text_splitter_eq, he]
  by_cases hc : collection_exists st name <;> simp [hc]

/-! ## Claims -/

/-- C5 counterexample: `rag_tool` reports the same constant status
string "success" both when the chain refuses and when it answers a
different text, so the returned record carries no boolean answered flag
distinguishing the two outcomes. -/
theorem c5_counterexample :
    (rag_tool (fun _ => refusalSentence) "What is the capital of Germany?").status =
      "success" ∧
    (rag_tool (fun _ => "Paris") "What is the capital of France?").status = "success" ∧
    refusalSentence ≠ "Paris" :=
  ⟨rfl, rfl, by decide⟩

/-- C5 amended: `rag_tool` returns a record of two strings — `status`,
always the constant "success", and `answer`, the chain output verbatim —
so a refusal outcome is distinguishable from a successful answer only by
comparing `answer` against the fixed refusal sentence, not by any
boolean flag. -/
theorem c5_rag_tool_shape (invoke : String → String) (q : String) :
    rag_tool invoke q = { status := "success", answer := invoke q } ∧
    ((rag_tool invoke q).answer = refusalSentence ↔ invoke q = refusalSentence) :=
  ⟨rfl, Iff.rfl⟩

/-- C8 counterexample: with every configuration variable missing,
startup configuration loading still yields a configuration value (all
fields `none`) rather than surfacing a fatal error. -/
theorem c8_counterexample :
    loadConfig (fun _ => none) =
      { DATA_DIR := none, QDRANT_URL := none, COLLECTION_NAME := none,
        MODEL_NAME := none, EMBEDDING_MODEL := none } := rfl

/-- C8 amended: startup configuration loading performs no validation and
cannot fail: each field is the raw environment read, `none` when the
variable is missing, so missing configuration surfaces (if at all) only
inside later pipeline calls. -/
theorem c8_loadConfig_total (env : EnvVars) :
    loadConfig env =
      { DATA_DIR := env "DATA_DIR", QDRANT_URL := env "QDRANT_URL",
        COLLECTION_NAME := env "COLLECTION_NAME", MODEL_NAME := env "MODEL_NAME",
        EMBEDDING_MODEL := env "EMBEDDING_MODEL" } := rfl

/-- C9: the retrieval step is configured with similarity search and k
fixed at 4, against the collection configuration ingestion creates with
the cosine metric. -/
theorem c9_topk_similarity :
    build_rag_chain.retriever.k = 4 ∧
    build_rag_chain.retriever.search_type = "similarity" ∧
    ingestVectorParams.distance = Distance.cosine :=
  ⟨rfl, rfl, rfl⟩

/-- C2 counterexample: on a directory containing no PDF file, the run
raises no error at all — it succeeds, reports 0 chunks, and even
replaces the previously existing collection with a fresh empty one. -/
theorem c2_counterexample :
    ingest_data "docs" envNoPdf [("docs", oldCollection)] =
      (.ok 0,
        [("docs", { params := ingestVectorParams, points := [] })],
        [.listDir, .splitterInit 1000 200, .deleteCollection "docs",
          .createCollection "docs" ingestVectorParams, .upsert 0, .printCount 0]) := rfl

/-- C2 amended: there is no IngestionError.  An unreadable source
directory propagates the `os.listdir` OSError unchanged, with the store
untouched; a directory with zero eligible documents makes the run
proceed, replace the collection with a fresh empty one, and report 0
chunks; a successful run reports the number of chunks written. -/
theorem c2_no_corpus_validation (name : String) (env : IngestEnv) (st : StoreState) :
    (∀ e, env.listing = .error e → ingest_data name env st = (.error e, st, [.listDir])) ∧
    (∀ files, env.listing = .ok files → eligible files = [] →
      (ingest_data name env st).1 = .ok 0 ∧
      Event.printCount 0 ∈ (ingest_data name env st).2.2 ∧
      ((ingest_data name env st).2.1).lookup name =
        some { params := ingestVectorParams, points := [] }) := by
  constructor
  · intro e he
    exact ingest_data_listing_error name env st e he
  · intro files hl helig
    have hd := loadDocumentsT_ok env.extract (fun _ => []) files
      (fun f hf => absurd (helig ▸ hf) (List.not_mem_nil f))
    rw [helig] at hd
    simp only [List.map_nil, List.flatMap_nil] at hd
    have hd2 : (loadDocumentsT env.extract files).2 = .ok [] := by rw [hd]
    have he : embedChunks env.embed (theSplitter.split_documents []) = .ok [] := rfl
    have hs := ingest_data_success name env st files [] [] hl hd2 he
    have h0 : theSplitter.split_documents [] = [] := rfl
    rw [hs]
    exact ⟨rfl, by simp [h0], lookup_upsert_create _ name _ []⟩

/-- C2 witness: the amended statement at the concrete no-PDF run. -/
theorem c2_witness :
    (ingest_data "docs" envNoPdf []).1 = .ok 0 ∧
    Event.printCount 0 ∈ (ingest_data "docs" envNoPdf []).2.2 ∧
    ((ingest_data "docs" envNoPdf []).2.1).lookup "docs" =
      some { params := ingestVectorParams, points := [] } :=
  (c2_no_corpus_validation "docs" envNoPdf []).2 ["notes.txt"] rfl (by decide)

/-- C6: a successful ingestion run leaves the named collection present
with vector size 768 and cosine distance; the run creates it with
exactly that configuration and deletes any previous collection of the
same name first. -/
theorem c6_collection_params (name : String) (env : IngestEnv) (st : StoreState)
    (h : ∃ n, (ingest_data name env st).1 = .ok n) :
    (∃ ps, ((ingest_data name env st).2.1).lookup name =
        some { params := { size := 768, distance := Distance.cosine }, points := ps }) ∧
    Event.createCollection name { size := 768, distance := Distance.cosine } ∈
      (ingest_data name env st).2.2 ∧
    (collection_exists st name = true →
      Event.deleteCollection name ∈ (ingest_data name env st).2.2) := by
  rcases h with ⟨n, hn⟩
  cases hl : env.listing with
  | error e =>
    rw [ingest_data_listing_error name env st e hl] at hn
    exact absurd hn (by simp)
  | ok files =>
    cases hd : (loadDocumentsT env.extract files).2 with
    | error e =>
      rw [ingest_data_extract_error name env st files e hl hd] at hn
      exact absurd hn (by simp)
    | ok documents =>
      cases he : embedChunks env.embed (theSplitter.split_documents documents) with
      | error e =>
        rw [ingest_data_embed_error name env st files documents e hl hd he] at hn
        exact absurd hn (by simp)
      | ok points =>
        rw [ingest_data_success name env st files documents points hl hd he]
        have hvp : ingestVectorParams =
            { size := 768, distance := Distance.cosine } := rfl
        refine ⟨⟨points, ?_⟩, by simp [hvp.symm], ?_⟩
        · rw [← hvp]
          exact lookup_upsert_create _ name _ points
        · intro hc
          simp [hc]

/-- C6 witness: the statement at a concrete successful run. -/
theorem c6_witness :
    (∃ ps, ((ingest_data "docs" envOnePdf []).2.1).lookup "docs" =
        some { params := { size := 768, distance := Distance.cosine }, points := ps }) ∧
    Event.createCollection "docs" { size := 768, distance := Distance.cosine } ∈
      (ingest_data "docs" envOnePdf []).2.2 ∧
    (collection_exists [] "docs" = true →
      Event.deleteCollection "docs" ∈ (ingest_data "docs" envOnePdf []).2.2) :=
  c6_collection_params "docs" envOnePdf [] ⟨1, rfl⟩

/-- C1 counterexample: extraction succeeds and embedding fails, yet the
previously existing collection has already been dropped and recreated
empty — the failed run destroys its previous contents. -/
theorem c1_counterexample :
    (ingest_data "docs" envEmbedFail [("docs", oldCollection)]).1 =
      .error "embedding failed" ∧
    (ingest_data "docs" envEmbedFail [("docs", oldCollection)]).2.1 =
      [("docs", { params := ingestVectorParams, points := [] })] ∧
    oldCollection.points ≠ [] :=
  ⟨rfl, rfl, by decide⟩

/-- C1 amended: an extraction failure aborts the run before any store
mutation, so the previous collection survives; an embedding failure,
however, occurs only after the drop-and-recreate, so the failed run
leaves a fresh empty collection where the previous contents were; the
new contents appear only after a full successful embedding pass. -/
theorem c1_failure_semantics (name : String) (env : IngestEnv) (st : StoreState)
    (files : List String) :
    (∀ e, env.listing = .ok files → (loadDocumentsT env.extract files).2 = .error e →
      (ingest_data name env st).1 = .error e ∧ (ingest_data name env st).2.1 = st) ∧
    (∀ documents e, env.listing = .ok files →
      (loadDocumentsT env.extract files).2 = .ok documents →
      embedChunks env.embed (theSplitter.split_documents documents) = .error e →
      (ingest_data name env st).1 = .error e ∧
      ((ingest_data name env st).2.1).lookup name =
        some { params := ingestVectorParams, points := [] }) := by
  constructor
  · intro e hl hd
    rw [ingest_data_extract_error name env st files e hl hd]
    exact ⟨rfl, rfl⟩
  · intro documents e hl hd he
    rw [ingest_data_embed_error name env st files documents e hl hd he]
    exact ⟨rfl, lookup_create _ _ _⟩

/-- C1 witness: the amended statement at the two concrete failing runs —
the extraction failure preserves the old store, the embedding failure
leaves the fresh empty collection. -/
theorem c1_witness :
    ((ingest_data "docs" envExtractFail [("docs", oldCollection)]).1 =
        .error "corrupt pdf" ∧
      (ingest_data "docs" envExtractFail [("docs", oldCollection)]).2.1 =
        [("docs", oldCollection)]) ∧
    ((ingest_data "docs" envEmbedFail [("docs", oldCollection)]).1 =
        .error "embedding failed" ∧
      ((ingest_data "docs" envEmbedFail [("docs", oldCollection)]).2.1).lookup "docs" =
        some { params := ingestVectorParams, points := [] }) :=
  ⟨(c1_failure_semantics "docs" envExtractFail [("docs", oldCollection)] ["a.pdf"]).1
      "corrupt pdf" rfl rfl,
    (c1_failure_semantics "docs" envEmbedFail [("docs", oldCollection)] ["a.pdf"]).2
      [{ page_content := "hello".data, source := "a.pdf" }] "embedding failed"
      rfl rfl rfl⟩

/-- C3 counterexample: the splitter is constructed during the ingestion
run, after a document has already been extracted — the event trace of the run
places extraction strictly before splitter construction, refuting
"at startup, before any document is processed". -/
theorem c3_counterexample :
    (ingest_data "docs" envOnePdf []).2.2 =
      [.listDir, .extractFile "a.pdf", .splitterInit 1000 200,
        .createCollection "docs" ingestVectorParams, .upsert 1, .printCount 1] := rfl

/-- C3 amended: the precondition overlap < chunk_size is enforced when
the splitter is constructed (construction errors exactly when
overlap ≥ chunk_size); the repository always constructs its splitter
with the fixed valid parameters 1000/200, and does so inside each
ingestion run after document extraction — in every run trace all
extraction events precede any splitter-construction event — not at
process startup. -/
theorem c3_overlap_check (cs ov : Nat) (name : String) (env : IngestEnv)
    (st : StoreState) :
    ((∃ e, RecursiveCharacterTextSplitter.make cs ov = .error e) ↔ cs ≤ ov) ∧
    get_text_splitter = .ok theSplitter ∧
    ∃ pre post, (ingest_data name env st).2.2 = pre ++ post ∧
      (∀ a b, Event.splitterInit a b ∉ pre) ∧
      (∀ f, Event.extractFile f ∉ post) := by
  refine ⟨?_, rfl, ?_⟩
  · unfold RecursiveCharacterTextSplitter.make
    by_cases h : cs ≤ ov <;> simp [h]
  · cases hl : env.listing with
    | error e =>
      rw [ingest_data_listing_error name env st e hl]
      exact ⟨[.listDir], [], rfl, by simp, by simp⟩
    | ok files =>
      have htr := loadDocumentsT_trace_extract env.extract files
      have hpre : ∀ a b, Event.splitterInit a b ∉
          Event.listDir :: (loadDocumentsT env.extract files).1 := by
        intro a b hab
        simp only [List.mem_cons] at hab
        rcases hab with h | h
        · exact Event.noConfusion h
        · rcases htr _ h with ⟨f, hf⟩
          exact Event.noConfusion hf
      cases hd : (loadDocumentsT env.extract files).2 with
      | error e =>
        rw [ingest_data_extract_error name env st files e hl hd]
        exact ⟨Event.listDir :: (loadDocumentsT env.extract files).1, [],
          by simp, hpre, by simp⟩
      | ok documents =>
        cases he : embedChunks env.embed (theSplitter.split_documents documents) with
        | error e =>
          rw [ingest_data_embed_error name env st files documents e hl hd he]
          refine ⟨Event.listDir :: (loadDocumentsT env.extract files).1,
            [Event.splitterInit 1000 200] ++
              (if collection_exists st name then [Event.deleteCollection name] else []) ++
              [Event.createCollection name ingestVectorParams],
            by simp, hpre, ?_⟩
          intro f hf
          by_cases hc : collection_exists st name <;> simp [hc] at hf
        | ok points =>
          rw [ingest_data_success name env st files documents points hl hd he]
          refine ⟨Event.listDir :: (loadDocumentsT env.extract files).1,
            [Event.splitterInit 1000 200] ++
              (if collection_exists st name then [Event.deleteCollection name] else []) ++
              [Event.createCollection name ingestVectorParams,
                Event.upsert points.length,
                Event.printCount (theSplitter.split_documents documents).length],
            by simp, hpre, ?_⟩
          intro f hf
          by_cases hc : collection_exists st name <;> simp [hc] at hf

/-- C3 witness: the amended statement at concrete inputs — construction
with overlap = chunk_size = 1000 is at the rejected boundary, and the
concrete one-PDF run carries its extraction before the splitter event. -/
theorem c3_witness :
    ((∃ e, RecursiveCharacterTextSplitter.make 1000 1000 = .error e) ↔ 1000 ≤ 1000) ∧
    get_text_splitter = .ok theSplitter ∧
    ∃ pre post, (ingest_data "docs" envOnePdf []).2.2 = pre ++ post ∧
      (∀ a b, Event.splitterInit a b ∉ pre) ∧
      (∀ f, Event.extractFile f ∉ post) :=
  c3_overlap_check 1000 1000 "docs" envOnePdf []

/-- C4 counterexample: enumeration follows the os.listdir order.  The
same file set listed in its two possible orders yields the loaded
document sequences in those orders — and they differ — so documents are
not enumerated in filename-sorted order and the ingested sequence is not
a function of the file set alone. -/
theorem c4_counterexample :
    (loadDocumentsT envBA.extract ["b.pdf", "a.pdf"]).2 =
      .ok [{ page_content := "b.pdf".data, source := "b.pdf" },
        { page_content := "a.pdf".data, source := "a.pdf" }] ∧
    (loadDocumentsT envAB.extract ["a.pdf", "b.pdf"]).2 =
      .ok [{ page_content := "a.pdf".data, source := "a.pdf" },
        { page_content := "b.pdf".data, source := "b.pdf" }] ∧
    (["b.pdf", "a.pdf"] : List String).Perm ["a.pdf", "b.pdf"] ∧
    (loadDocumentsT envBA.extract ["b.pdf", "a.pdf"]).2 ≠
      (loadDocumentsT envAB.extract ["a.pdf", "b.pdf"]).2 :=
  ⟨rfl, rfl, List.Perm.swap _ _ _, by decide⟩

/-- C4 amended: enumeration follows the os.listdir listing order with no
sorting; relative to that order the pipeline is deterministic: a
successful run reports exactly the chunks of the fixed splitter applied
to the pages of the eligible files concatenated in listing order, and
stores them in that order. -/
theorem c4_order_determinism (files : List String) (env : IngestEnv)
    (pages : String → List PyDocument) (vec : Text → List Int)
    (name : String) (st : StoreState)
    (hl : env.listing = .ok files)
    (hex : ∀ f ∈ eligible files, env.extract f = .ok (pages f))
    (hembed : env.embed = fun t => .ok (vec t)) :
    (ingest_data name env st).1 =
      .ok (theSplitter.split_documents ((eligible files).flatMap pages)).length ∧
    ((ingest_data name env st).2.1).lookup name =
      some ⟨ingestVectorParams,
        (theSplitter.split_documents ((eligible files).flatMap pages)).map
          (fun c => { vector := vec c.page_content, payload := c })⟩ := by
  have hd2 : (loadDocumentsT env.extract files).2 =
      .ok ((eligible files).flatMap pages) := by
    rw [loadDocumentsT_ok env.extract pages files hex]
  have he : embedChunks env.embed
      (theSplitter.split_documents ((eligible files).flatMap pages)) =
      .ok ((theSplitter.split_documents ((eligible files).flatMap pages)).map
        (fun c => { vector := vec c.page_content, payload := c })) := by
    rw [hembed]
    exact embedChunks_ok vec _
  rw [ingest_data_success name env st files _ _ hl hd2 he]
  exact ⟨rfl, lookup_upsert_create _ _ _ _⟩

/-- C4 witness: the amended statement at the concrete two-file run in
reverse listing order. -/
theorem c4_witness :
    (ingest_data "docs" envBA []).1 =
      .ok (theSplitter.split_documents
        ((eligible ["b.pdf", "a.pdf"]).flatMap
          (fun f => [{ page_content := f.data, source := f }]))).length ∧
    ((ingest_data "docs" envBA []).2.1).lookup "docs" =
      some ⟨ingestVectorParams,
        (theSplitter.split_documents
          ((eligible ["b.pdf", "a.pdf"]).flatMap
            (fun f => [{ page_content := f.data, source := f }]))).map
          (fun c => { vector := [1], payload := c })⟩ :=
  c4_order_determinism ["b.pdf", "a.pdf"] envBA
    (fun f => [{ page_content := f.data, source := f }]) (fun _ => [1]) "docs" []
    rfl (fun _ _ => rfl) rfl

/-- C10: the loading loop loads a file exactly when its name ends in the
lowercase suffix ".pdf"; every other file (an uppercase ".PDF" included)
is skipped without its extraction ever being attempted — so even an
unreadable ineligible file raises nothing — and a successful run reports
the chunk count of the loaded files only. -/
theorem c10_pdf_only (files : List String)
    (extract : String → Except String (List PyDocument))
    (pages : String → List PyDocument)
    (hex : ∀ f ∈ eligible files, extract f = .ok (pages f)) :
    loadDocumentsT extract files =
      ((eligible files).map Event.extractFile,
        .ok ((eligible files).flatMap pages)) ∧
    (∀ f, f ∈ eligible files ↔ f ∈ files ∧ pyEndsWith f ".pdf" = true) ∧
    (∀ (env : IngestEnv) (name : String) (st : StoreState) (vec : Text → List Int),
      env.listing = .ok files → env.extract = extract →
      env.embed = (fun t => .ok (vec t)) →
      (ingest_data name env st).1 =
        .ok (theSplitter.split_documents ((eligible files).flatMap pages)).length) := by
  refine ⟨loadDocumentsT_ok extract pages files hex, ?_, ?_⟩
  · intro f
    simp [eligible, List.mem_filter]
  · intro env name st vec hl hexx hembed
    have hd2 : (loadDocumentsT env.extract files).2 =
        .ok ((eligible files).flatMap pages) := by
      rw [hexx, loadDocumentsT_ok extract pages files hex]
    have he : embedChunks env.embed
        (theSplitter.split_documents ((eligible files).flatMap pages)) =
        .ok ((theSplitter.split_documents ((eligible files).flatMap pages)).map
          (fun c => { vector := vec c.page_content, payload := c })) := by
      rw [hembed]
      exact embedChunks_ok vec _
    rw [ingest_data_success name env st files _ _ hl hd2 he]

/-- C10 witness: the statement at a directory mixing "a.pdf", "B.PDF"
and "c.txt" over an extraction collaborator that fails on anything but a
lowercase-suffix PDF. -/
theorem c10_witness :
    loadDocumentsT extractMixed ["a.pdf", "B.PDF", "c.txt"] =
      ((eligible ["a.pdf", "B.PDF", "c.txt"]).map Event.extractFile,
        .ok ((eligible ["a.pdf", "B.PDF", "c.txt"]).flatMap
          (fun f => [{ page_content := f.data, source := f }]))) ∧
    (∀ f, f ∈ eligible ["a.pdf", "B.PDF", "c.txt"] ↔
      f ∈ ["a.pdf", "B.PDF", "c.txt"] ∧ pyEndsWith f ".pdf" = true) ∧
    (∀ (env : IngestEnv) (name : String) (st : StoreState) (vec : Text → List Int),
      env.listing = .ok ["a.pdf", "B.PDF", "c.txt"] → env.extract = extractMixed →
      env.embed = (fun t => .ok (vec t)) →
      (ingest_data name env st).1 =
        .ok (theSplitter.split_documents
          ((eligible ["a.pdf", "B.PDF", "c.txt"]).flatMap
            (fun f => [{ page_content := f.data, source := f }]))).length) :=
  c10_pdf_only ["a.pdf", "B.PDF", "c.txt"] extractMixed
    (fun f => [{ page_content := f.data, source := f }]) (by decide)

/-! ## Chunk-size bound for the splitter (claim C7) -/

theorem sumLens_nil : sumLens [] = 0 := rfl

theorem sumLens_cons (d : Text) (l : List Text) :
    sumLens (d :: l) = d.length + sumLens l := by
  simp [sumLens]

theorem sumLens_append (a b : List Text) :
    sumLens (a ++ b) = sumLens a + sumLens b := by
  simp [sumLens]

theorem pyStrip_length_le (t : Text) : (pyStrip t).length ≤ t.length := by
  unfold pyStrip
  simp only [List.length_reverse]
  calc ((t.dropWhile Char.isWhitespace).reverse.dropWhile Char.isWhitespace).length
      ≤ (t.dropWhile Char.isWhitespace).reverse.length :=
        (List.dropWhile_suffix _).length_le
    _ = (t.dropWhile Char.isWhitespace).length := List.length_reverse _
    _ ≤ t.length := (List.dropWhile_suffix _).length_le

theorem joinStrip_length_le (cur : List Text) :
    (joinStrip cur).length ≤ sumLens cur := by
  unfold joinStrip sumLens
  calc (pyStrip cur.flatten).length ≤ cur.flatten.length := pyStrip_length_le _
    _ = (cur.map List.length).sum := List.length_flatten _

/-- The window shrink keeps `total` equal to the summed window length,
ends at or below the overlap budget, and leaves room for the incoming
fragment unless the window emptied. -/
theorem popWindow_spec (cs ov L : Nat) :
    ∀ (cur : List Text) (total : Nat), total = sumLens cur →
      (popWindow cs ov L cur total).2 = sumLens (popWindow cs ov L cur total).1 ∧
      (popWindow cs ov L cur total).2 ≤ ov ∧
      ((popWindow cs ov L cur total).2 + L ≤ cs ∨ (popWindow cs ov L cur total).2 = 0) := by
  intro cur
  induction cur with
  | nil =>
    intro total htot
    rw [sumLens_nil] at htot
    subst htot
    exact ⟨rfl, Nat.zero_le _, Or.inr rfl⟩
  | cons d rest ih =>
    intro total htot
    unfold popWindow
    by_cases hcond : ov < total ∨ (cs < total + L ∧ 0 < total)
    · rw [if_pos hcond]
      apply ih
      rw [sumLens_cons] at htot
      omega
    · rw [if_neg hcond]
      push_neg at hcond
      obtain ⟨h1, h2⟩ := hcond
      by_cases h3 : cs < total + L
      · have h4 := h2 h3
        exact ⟨htot, by omega, Or.inr (by omega)⟩
      · exact ⟨htot, by omega, Or.inl (by omega)⟩

/-- Every chunk the merge emits is at most `chunk_size` characters,
provided every fragment is. -/
theorem mergeLoop_bound {cs ov : Nat} :
    ∀ (splits cur : List Text) (total : Nat),
      (∀ d ∈ splits, d.length ≤ cs) → total = sumLens cur → total ≤ cs →
      ∀ c ∈ mergeLoop cs ov splits cur total, c.length ≤ cs := by
  intro splits
  induction splits with
  | nil =>
    intro cur total _ htot hle c hc
    unfold mergeLoop at hc
    cases hj : joinStrip cur with
    | nil => rw [hj] at hc; simp at hc
    | cons x xs =>
      rw [hj] at hc
      simp only [List.mem_singleton] at hc
      have hlen := joinStrip_length_le cur
      rw [hj] at hlen
      rw [hc]
      calc (x :: xs).length ≤ sumLens cur := hlen
        _ = total := htot.symm
        _ ≤ cs := hle
  | cons d rest ih =>
    intro cur total hsp htot hle c hc
    have hd : d.length ≤ cs := hsp d (List.mem_cons_self d rest)
    have hsp2 : ∀ x ∈ rest, x.length ≤ cs :=
      fun x hx => hsp x (List.mem_cons_of_mem d hx)
    simp only [mergeLoop] at hc
    by_cases hbig : cs < total + d.length
    · rw [if_pos hbig] at hc
      cases cur with
      | nil =>
        rw [sumLens_nil] at htot
        omega
      | cons x xs =>
        have hps := popWindow_spec cs ov d.length (x :: xs) total htot
        have htot2 : (popWindow cs ov d.length (x :: xs) total).2 + d.length =
            sumLens ((popWindow cs ov d.length (x :: xs) total).1 ++ [d]) := by
          rw [sumLens_append, sumLens_cons, sumLens_nil]
          omega
        have hle2 : (popWindow cs ov d.length (x :: xs) total).2 + d.length ≤ cs := by
          rcases hps.2.2 with h | h
          · exact h
          · omega
        cases hj : joinStrip (x :: xs) with
        | nil =>
          rw [hj] at hc
          exact ih _ _ hsp2 htot2 hle2 c hc
        | cons y ys =>
          rw [hj] at hc
          rcases List.mem_cons.1 hc with hc1 | hc2
          · have hlen := joinStrip_length_le (x :: xs)
            rw [hj] at hlen
            rw [hc1]
            calc (y :: ys).length ≤ sumLens (x :: xs) := hlen
              _ = total := htot.symm
              _ ≤ cs := hle
          · exact ih _ _ hsp2 htot2 hle2 c hc2
    · rw [if_neg hbig] at hc
      refine ih _ _ hsp2 ?_ (by omega) c hc
      rw [sumLens_append, sumLens_cons, sumLens_nil]
      omega

/-- Chunk-size bound for the merge from an empty window. -/
theorem mergeSplits_bound {cs ov : Nat} (splits : List Text)
    (hsp : ∀ d ∈ splits, d.length ≤ cs) :
    ∀ c ∈ mergeSplits cs ov splits, c.length ≤ cs :=
  mergeLoop_bound splits [] 0 hsp rfl (Nat.zero_le cs)

/-- An empty separator splits a text into single characters. -/
theorem splitKeepSep_empty_len (t : Text) :
    ∀ s ∈ splitKeepSep [] t, s.length = 1 := by
  intro s hs
  simp only [splitKeepSep, List.isEmpty_nil, if_true] at hs
  rcases List.mem_map.1 hs with ⟨c, _, rfl⟩
  rfl

/-- If the hierarchy contains the empty separator, the choice either is
the empty separator or keeps the empty separator among the retried
ones. -/
theorem chooseSep_empty_cases :
    ∀ (seps : List Text) (t : Text), [] ∈ seps →
      (chooseSep seps t).1 = [] ∨ [] ∈ (chooseSep seps t).2 := by
  intro seps
  induction seps with
  | nil => intro t h; simp at h
  | cons s ss ih =>
    intro t hmem
    by_cases h1 : s.isEmpty
    · left
      simp [chooseSep, h1]
    · have hss : [] ∈ ss := by
        rcases List.mem_cons.1 hmem with h | h
        · rw [← h] at h1
          simp at h1
        · exact h
      by_cases h2 : containsSub s t
      · right
        simpa [chooseSep, h1, h2] using hss
      · cases ss with
        | nil => simp at hss
        | cons s2 ss2 =>
          have hrec := ih t hss
          simpa [chooseSep, h1, h2] using hrec

/-- Chunk-size bound for the fragment walk: pending fragments are small,
and each oversize fragment is either small after all or re-split into
bounded chunks by the handler. -/
theorem processSplitsGo_bound {cs ov : Nat} (handler : Text → List Text)
    (emitRaw : Bool) :
    ∀ (splits good : List Text),
      (∀ g ∈ good, g.length ≤ cs) →
      (∀ s ∈ splits, s.length < cs ∨
        (emitRaw = false ∧ ∀ c ∈ handler s, c.length ≤ cs)) →
      ∀ c ∈ processSplitsGo cs ov handler emitRaw splits good, c.length ≤ cs := by
  intro splits
  induction splits with
  | nil =>
    intro good hgood _ c hc
    unfold processSplitsGo at hc
    cases good with
    | nil => simp at hc
    | cons g gs => exact mergeSplits_bound _ hgood c hc
  | cons s rest ih =>
    intro good hgood hsp c hc
    simp only [processSplitsGo] at hc
    by_cases hsmall : s.length < cs
    · rw [if_pos hsmall] at hc
      refine ih (good ++ [s]) ?_ ?_ c hc
      · intro g hg
        rcases List.mem_append.1 hg with h | h
        · exact hgood g h
        · rw [List.mem_singleton.1 h]
          omega
      · exact fun s2 hs2 => hsp s2 (List.mem_cons_of_mem _ hs2)
    · rw [if_neg hsmall] at hc
      rcases List.mem_append.1 hc with hc12 | hc3
      · rcases List.mem_append.1 hc12 with hc1 | hc2
        · cases good with
          | nil => simp at hc1
          | cons g gs => exact mergeSplits_bound _ hgood c hc1
        · rcases hsp s (List.mem_cons_self s rest) with h | ⟨hraw, hb⟩
          · exact absurd h hsmall
          · rw [hraw] at hc2
            simp only [if_false, Bool.false_eq_true] at hc2
            exact hb c hc2
      · exact ih [] (by simp)
          (fun s2 hs2 => hsp s2 (List.mem_cons_of_mem _ hs2)) c hc3

/-- Chunk-size bound for the recursive splitter, for any hierarchy that
contains the empty separator and any sufficient fuel. -/
theorem splitTextFuel_bound (cs ov : Nat) (hcs : 2 ≤ cs) :
    ∀ (fuel : Nat) (seps : List Text), [] ∈ seps → seps.length ≤ fuel →
      ∀ (t : Text), ∀ c ∈ splitTextFuel cs ov fuel seps t, c.length ≤ cs := by
  intro fuel
  induction fuel with
  | zero =>
    intro seps hmem hlen
    cases seps with
    | nil => simp at hmem
    | cons s ss => simp at hlen
  | succ fuel ih =>
    intro seps hmem hlen t c hc
    cases seps with
    | nil => simp at hmem
    | cons s ss =>
      have hunf : splitTextFuel cs ov (fuel + 1) (s :: ss) t =
          processSplitsGo cs ov (splitTextFuel cs ov fuel (chooseSep (s :: ss) t).2)
            (chooseSep (s :: ss) t).2.isEmpty
            (splitKeepSep (chooseSep (s :: ss) t).1 t) [] := rfl
      rw [hunf] at hc
      refine processSplitsGo_bound _ _ _ [] (by simp) ?_ c hc
      intro s2 hs2
      rcases chooseSep_empty_cases (s :: ss) t hmem with hfst | hsnd
      · left
        rw [hfst] at hs2
        have h1 := splitKeepSep_empty_len t s2 hs2
        omega
      · right
        have hne : (chooseSep (s :: ss) t).2.isEmpty = false := by
          cases hsn : (chooseSep (s :: ss) t).2 with
          | nil => rw [hsn] at hsnd; simp at hsnd
          | cons a as => simp
        refine ⟨hne, ?_⟩
        intro c2 hc2
        have hlt := chooseSep_snd_length_lt s ss t
        exact ih (chooseSep (s :: ss) t).2 hsnd (by simp at hlt hlen ⊢; omega) s2 c2 hc2

set_option maxRecDepth 8000 in
/-- C7 counterexample: two 501-character paragraphs split into two
chunks that share no boundary text at all — the last 200 characters of
the first chunk differ from the first 200 of the second — so
consecutive chunks do not share exactly `overlap` (200) characters, and
this is not a document-end tolerance case. -/
theorem c7_counterexample :
    theSplitter.split_text docA =
      [List.replicate 501 'a', List.replicate 501 'b'] ∧
    (List.replicate 501 'a').drop (501 - 200) ≠
      ((List.replicate 501 'b').take 200 : Text) := by
  constructor
  · decide
  · decide

/-- C7 amended: with the configured chunk_size 1000 and overlap 200,
every chunk of every document is at most 1000 characters, and the merge
carries at most 200 characters of trailing fragments into the next
chunk — but consecutive chunks may share fewer than 200 characters of
boundary text (the counterexample shares none). -/
theorem c7_chunk_bounds :
    get_text_splitter = .ok theSplitter ∧
    (∀ (t : Text), ∀ c ∈ theSplitter.split_text t, c.length ≤ 1000) ∧
    (∀ (L : Nat) (cur : List Text) (total : Nat), total = sumLens cur →
      (popWindow 1000 200 L cur total).2 ≤ 200) := by
  refine ⟨rfl, ?_, ?_⟩
  · intro t c hc
    exact splitTextFuel_bound 1000 200 (by omega) defaultSeparators.length
      defaultSeparators (by decide) (Nat.le_refl _) t c hc
  · intro L cur total htot
    exact (popWindow_spec 1000 200 L cur total htot).2.1

/-- C7 witness: the bounds at concrete inputs. -/
theorem c7_witness :
    ("hi".data : Text).length ≤ 1000 ∧
    (popWindow 1000 200 5 ["abc".data] 3).2 ≤ 200 :=
  ⟨c7_chunk_bounds.2.1 "hi".data "hi".data (by decide),
    c7_chunk_bounds.2.2 5 ["abc".data] 3 (by decide)⟩

end RagAgent
